import Mathlib

/-!
# Verification of the effect-serverless-todo core

Shallow embedding of the repository's core:
* the shared schema (`packages/shared/src/schemas/Todo.ts`),
* the in-memory Effect repository (`apps/backend/services/TodoRepository.ts`),
* the Effect HTTP router and its error mapping (`router.ts`, wired by the
  Lambda adapter),
* the plain in-memory Lambda handler (`apps/backend/src/index.ts`).

JavaScript `Map` values are modelled as association lists with unique keys
(`Map.set` replaces in place or appends, `Map.delete` removes the key,
`Map.get` looks the key up).  Unknown JSON request bodies are modelled by the
inductive `JsonValue`.
-/

/-- A parsed JSON value, as produced by `JSON.parse` / consumed by
`S.decodeUnknown`.  Sufficient for the request bodies the service handles. -/
inductive JsonValue where
  | null
  | bool (b : Bool)
  | str (s : String)
  | num (n : Int)
  | obj (fields : List (String × JsonValue))

/-- `typeof v === "boolean"`. -/
def JsonValue.isBool : JsonValue → Bool
  | .bool _ => true
  | _ => false

/-- Field access on a JSON object (`body.title`, `body.completed`). -/
def jsonGet : List (String × JsonValue) → String → Option JsonValue
  | [], _ => none
  | (k, v) :: rest, key => if k = key then some v else jsonGet rest key

/-- The `Todo` entity of `packages/shared/src/schemas/Todo.ts`:
`{ id, title, completed, createdAt }`.  `completed : Bool` and
`createdAt : String` hold by construction of the embedding. -/
structure Todo where
  id : String
  title : String
  completed : Bool
  createdAt : String
deriving DecidableEq, Repr

/-- `TodoNotFoundError { id }` from `errors.ts`. -/
structure TodoNotFoundError where
  id : String
deriving DecidableEq, Repr

/-- Decoded `CreateTodoInput`: `{ title, completed?: boolean }`.  The schema
decodes an absent `completed` to `some false` (`withDecodingDefault`). -/
structure CreateTodoInput where
  title : String
  completed : Option Bool
deriving DecidableEq, Repr

/-- Decoded `UpdateTodoInput` (`S.partial`): both fields optional; absent
fields are absent keys, not `undefined` values. -/
structure UpdateTodoInput where
  title : Option String := none
  completed : Option Bool := none
deriving DecidableEq, Repr

/-- The schema constraint on a title: `S.minLength(1), S.maxLength(200)`. -/
def isValidTitle (t : String) : Bool :=
  decide (1 ≤ t.length) && decide (t.length ≤ 200)

/-- The `Todo` schema constraints: non-empty `id`, bounded `title`. -/
def isValidTodo (t : Todo) : Bool :=
  decide (1 ≤ t.id.length) && isValidTitle t.title

/-- Validity of a decoded `CreateTodoInput`. -/
def isValidCreateInput (i : CreateTodoInput) : Bool :=
  isValidTitle i.title

/-- Validity of a decoded `UpdateTodoInput`: the title, when present,
satisfies the schema bounds. -/
def isValidUpdateInput (u : UpdateTodoInput) : Bool :=
  match u.title with
  | none => true
  | some t => isValidTitle t

/-- The repository's `Map<string, Todo>`, as an association list whose keys
are unique (a JavaScript `Map` cannot hold a key twice). -/
abbrev TodoMap := List (String × Todo)

/-- `map.get(id)`. -/
def mapGet : TodoMap → String → Option Todo
  | [], _ => none
  | (k, v) :: rest, id => if k = id then some v else mapGet rest id

/-- `map.set(id, todo)`: replaces the value of an existing key in place,
otherwise appends the new entry (JavaScript `Map` insertion order). -/
def mapSet : TodoMap → String → Todo → TodoMap
  | [], id, t => [(id, t)]
  | (k, v) :: rest, id, t =>
    if k = id then (k, t) :: rest else (k, v) :: mapSet rest id t

/-- `map.delete(id)`.  On the unique-key lists that represent a `Map` this
removes exactly the entry for `id`, as `Map.delete` does. -/
def mapDelete : TodoMap → String → TodoMap
  | [], _ => []
  | (k, v) :: rest, id =>
    if k = id then mapDelete rest id else (k, v) :: mapDelete rest id

/-- `map.has(id)`. -/
def mapHas (m : TodoMap) (id : String) : Bool :=
  (mapGet m id).isSome

/-- State of `TodoRepositoryLive`: the `Ref`-held map together with the
mutable `idCounter` (initialised to `1`). -/
structure RepoState where
  todos : TodoMap
  idCounter : Nat
deriving Repr

/-- The state produced by `Layer.effect`: `Ref.make(new Map())`,
`let idCounter = 1`. -/
def initialRepoState : RepoState := ⟨[], 1⟩

/-- The id generated by `create`: `` `todo-${idCounter}` ``. -/
def freshTodoId (c : Nat) : String := "todo-" ++ toString c

/-- `getById`: look the id up, fail `TodoNotFoundError` when absent. -/
def repoGetById (s : RepoState) (id : String) : Except TodoNotFoundError Todo :=
  match mapGet s.todos id with
  | some todo => .ok todo
  | none => .error ⟨id⟩

/-- `create`: fresh id from the counter, `completed: input.completed ?? false`,
`createdAt` the current time (passed in as `now`), then `Map.set`. -/
def repoCreate (s : RepoState) (input : CreateTodoInput) (now : String) :
    Todo × RepoState :=
  let id := freshTodoId s.idCounter
  let todo : Todo := ⟨id, input.title, input.completed.getD false, now⟩
  (todo, ⟨mapSet s.todos id todo, s.idCounter + 1⟩)

/-- `update`: fail when absent, otherwise `{ ...existing, ...updates }` —
only the fields present in `updates` overwrite the existing ones — then
`Map.set`. -/
def repoUpdate (s : RepoState) (id : String) (updates : UpdateTodoInput) :
    Except TodoNotFoundError (Todo × RepoState) :=
  match mapGet s.todos id with
  | none => .error ⟨id⟩
  | some existing =>
    let updated : Todo :=
      { existing with
        title := updates.title.getD existing.title
        completed := updates.completed.getD existing.completed }
    .ok (updated, { s with todos := mapSet s.todos id updated })

/-- `delete`: fail when `!map.has(id)`, otherwise remove the entry. -/
def repoDelete (s : RepoState) (id : String) : Except TodoNotFoundError RepoState :=
  if mapHas s.todos id then .ok { s with todos := mapDelete s.todos id }
  else .error ⟨id⟩

/-! ### Association-list lemmas for the `Map` model -/

theorem mapGet_mapSet_self (m : TodoMap) (k : String) (t : Todo) :
    mapGet (mapSet m k t) k = some t := by
  induction m with
  | nil => simp [mapSet, mapGet]
  | cons hd tl ih =>
    obtain ⟨k₀, v₀⟩ := hd
    by_cases h : k₀ = k <;> simp [mapSet, mapGet, h, ih]

theorem mapGet_mapSet_ne (m : TodoMap) (k k₂ : String) (t : Todo)
    (h : k₂ ≠ k) : mapGet (mapSet m k t) k₂ = mapGet m k₂ := by
  have h₂ : ¬k = k₂ := fun he => h he.symm
  induction m with
  | nil => simp [mapSet, mapGet, h₂]
  | cons hd tl ih =>
    obtain ⟨k₀, v₀⟩ := hd
    by_cases hk : k₀ = k
    · subst hk
      simp [mapSet, mapGet, h₂]
    · by_cases hk₂ : k₀ = k₂ <;> simp [mapSet, mapGet, hk, hk₂, h, ih]

theorem mapGet_mapDelete (m : TodoMap) (k k₂ : String) :
    mapGet (mapDelete m k) k₂ = if k₂ = k then none else mapGet m k₂ := by
  induction m with
  | nil => simp [mapDelete, mapGet]
  | cons hd tl ih =>
    obtain ⟨k₀, v₀⟩ := hd
    by_cases hk : k₀ = k
    · subst hk
      by_cases hk₂ : k₀ = k₂
      · subst hk₂
        simp [mapDelete, mapGet, ih]
      · simp [mapDelete, mapGet, hk₂, ih]
    · by_cases hk₂ : k₀ = k₂
      · have hne : ¬k₂ = k := by rw [← hk₂]; exact hk
        simp [mapDelete, mapGet, hk, hk₂, hne]
      · simp [mapDelete, mapGet, hk, hk₂, ih]

theorem mapSet_of_absent (m : TodoMap) (k : String) (t : Todo)
    (h : mapGet m k = none) : mapSet m k t = m ++ [(k, t)] := by
  induction m with
  | nil => simp [mapSet]
  | cons hd tl ih =>
    obtain ⟨k₀, v₀⟩ := hd
    by_cases hk : k₀ = k
    · simp [mapGet, hk] at h
    · simp [mapGet, hk] at h
      simp [mapSet, hk, ih h]

/-! ### Injectivity of the generated ids (`` `todo-${idCounter}` ``) -/

/-- Numeric value of a decimal digit character. -/
def digitVal (c : Char) : Nat := c.toNat - 48

/-- Value of a most-significant-first decimal digit string. -/
def digitsVal (ds : List Char) : Nat :=
  ds.foldl (fun a c => 10 * a + digitVal c) 0

theorem digitsVal_concat (xs : List Char) (c : Char) :
    digitsVal (xs ++ [c]) = 10 * digitsVal xs + digitVal c := by
  simp [digitsVal, List.foldl_append]

theorem digitVal_digitChar (d : Nat) (h : d < 10) :
    digitVal (Nat.digitChar d) = d := by
  interval_cases d <;> rfl

theorem toDigitsCore_append (fuel n : Nat) (ds : List Char) :
    Nat.toDigitsCore 10 fuel n ds = Nat.toDigitsCore 10 fuel n [] ++ ds := by
  induction fuel generalizing n ds with
  | zero => simp [Nat.toDigitsCore]
  | succ fuel ih =>
    simp only [Nat.toDigitsCore]
    by_cases h : n / 10 = 0
    · simp [h]
    · simp only [h, if_neg, if_false]
      rw [ih (n / 10) (Nat.digitChar (n % 10) :: ds),
        ih (n / 10) [Nat.digitChar (n % 10)]]
      simp

theorem digitsVal_toDigitsCore (fuel n : Nat) (h : n < fuel) :
    digitsVal (Nat.toDigitsCore 10 fuel n []) = n := by
  induction fuel generalizing n with
  | zero => omega
  | succ fuel ih =>
    have h₂ : n % 10 < 10 := Nat.mod_lt _ (by norm_num)
    have hmod := Nat.div_add_mod n 10
    simp only [Nat.toDigitsCore]
    by_cases h₀ : n / 10 = 0
    · simp only [h₀, if_pos]
      show digitsVal [Nat.digitChar (n % 10)] = n
      simp [digitsVal, digitVal_digitChar _ h₂]
      omega
    · have hlt : n / 10 < fuel := by
        have h10 : n / 10 < n := Nat.div_lt_self (by omega) (by norm_num)
        omega
      simp only [h₀, if_neg, if_false]
      rw [toDigitsCore_append, digitsVal_concat, ih _ hlt,
        digitVal_digitChar _ h₂]
      omega

theorem digitsVal_repr (n : Nat) : digitsVal (Nat.repr n).data = n := by
  have h : (Nat.repr n).data = Nat.toDigitsCore 10 (n + 1) n [] := rfl
  rw [h]
  exact digitsVal_toDigitsCore (n + 1) n (Nat.lt_succ_self n)

theorem freshTodoId_eq_repr (n : Nat) :
    freshTodoId n = "todo-" ++ Nat.repr n := rfl

theorem freshTodoId_injective : Function.Injective freshTodoId := by
  intro a b h
  rw [freshTodoId_eq_repr, freshTodoId_eq_repr] at h
  have h₂ : "todo-".data ++ (Nat.repr a).data
      = "todo-".data ++ (Nat.repr b).data := by
    rw [← String.data_append, ← String.data_append, h]
  have h₃ := congrArg digitsVal (List.append_cancel_left h₂)
  rwa [digitsVal_repr, digitsVal_repr] at h₃

/-! ### Reachable repository states -/

/-- One repository operation, as invoked on `TodoRepositoryLive`.  Failed
`update`/`delete` calls leave the `Ref` untouched. -/
inductive RepoOp where
  | create (input : CreateTodoInput) (now : String)
  | update (id : String) (updates : UpdateTodoInput)
  | delete (id : String)

/-- The state after one repository operation. -/
def repoStep (s : RepoState) (op : RepoOp) : RepoState :=
  match op with
  | .create input now => (repoCreate s input now).2
  | .update id u =>
    match repoUpdate s id u with
    | .ok (_, s₂) => s₂
    | .error _ => s
  | .delete id =>
    match repoDelete s id with
    | .ok s₂ => s₂
    | .error _ => s

/-- The state after a sequence of repository operations. -/
def repoExec (s : RepoState) (ops : List RepoOp) : RepoState :=
  ops.foldl repoStep s

/-- Counter invariant of `TodoRepositoryLive`: no stored key uses a counter
value the repository has not yet reached. -/
def counterBounds (s : RepoState) : Prop :=
  ∀ n, s.idCounter ≤ n → mapGet s.todos (freshTodoId n) = none

theorem counterBounds_initial : counterBounds initialRepoState := by
  intro n _
  rfl

theorem counterBounds_repoStep (s : RepoState) (op : RepoOp)
    (h : counterBounds s) : counterBounds (repoStep s op) := by
  cases op with
  | create input now =>
    intro n hn
    simp only [repoStep, repoCreate] at hn ⊢
    rw [mapGet_mapSet_ne]
    · exact h n (by omega)
    · intro he
      have := freshTodoId_injective he
      omega
  | update id u =>
    intro n
    cases hm : mapGet s.todos id with
    | none =>
      simp only [repoStep, repoUpdate, hm]
      exact h n
    | some existing =>
      simp only [repoStep, repoUpdate, hm]
      intro hn
      by_cases hid : freshTodoId n = id
      · exfalso
        rw [← hid] at hm
        rw [h n hn] at hm
        exact Option.noConfusion hm
      · rw [mapGet_mapSet_ne _ _ _ _ hid]
        exact h n hn
  | delete id =>
    intro n
    by_cases hhas : mapHas s.todos id = true
    · simp only [repoStep, repoDelete, hhas, if_true]
      intro hn
      rw [mapGet_mapDelete]
      split
      · rfl
      · exact h n hn
    · simp only [Bool.not_eq_true] at hhas
      simp only [repoStep, repoDelete, hhas, Bool.false_eq_true, if_false]
      exact h n

theorem counterBounds_repoExec (ops : List RepoOp) (s : RepoState)
    (h : counterBounds s) : counterBounds (repoExec s ops) := by
  induction ops generalizing s with
  | nil => exact h
  | cons op rest ih => exact ih _ (counterBounds_repoStep s op h)

/-! ### The Effect HTTP router (`router.ts`) -/

/-- The typed failures a route can surface: `TodoNotFoundError`,
`ValidationError { message, issues }`, or any other defect (`catchAll`). -/
inductive RouterError where
  | notFound (e : TodoNotFoundError)
  | validation (message : String) (issues : Option String)
  | other (cause : String)
deriving DecidableEq, Repr

/-- A response body, kept structured (the real code serialises to JSON). -/
inductive ResponseBody where
  | empty
  | todoJson (t : Todo)
  | todoListJson (ts : List Todo)
  | errorJson (error : String) (details : Option String)
deriving DecidableEq, Repr

/-- A router-level HTTP response. -/
structure Response where
  status : Nat
  headers : List (String × String)
  body : ResponseBody
deriving DecidableEq, Repr

/-- Headers set by the router's `jsonResponse` helper. -/
def jsonHeaders : List (String × String) := [("Content-Type", "application/json")]

/-- The permissive CORS headers of the `OPTIONS /*` route. -/
def corsHeaders : List (String × String) :=
  [("Access-Control-Allow-Origin", "*"),
   ("Access-Control-Allow-Methods", "GET,POST,PATCH,DELETE,OPTIONS"),
   ("Access-Control-Allow-Headers", "Content-Type")]

/-- `handleErrors`: `catchTags` on `TodoNotFoundError` (→ 404) and
`ValidationError` (→ 400), then `catchAll` (→ 500). -/
def handleErrors (result : Except RouterError Response) : Response :=
  match result with
  | .ok r => r
  | .error (.notFound e) =>
    ⟨404, jsonHeaders, .errorJson ("Todo with id " ++ e.id ++ " not found") none⟩
  | .error (.validation message issues) =>
    ⟨400, jsonHeaders, .errorJson message issues⟩
  | .error (.other cause) =>
    ⟨500, jsonHeaders, .errorJson "Internal server error" (some cause)⟩

/-- `parseBody(CreateTodoInput)`: `S.decodeUnknown` of the create schema,
schema failures mapped to `ValidationError { message: "Invalid request body",
issues }`.  Excess properties are ignored; an absent `completed` decodes to
`false` (`withDecodingDefault`). -/
def decodeCreateTodoInput (v : JsonValue) : Except RouterError CreateTodoInput :=
  match v with
  | .obj fields =>
    match jsonGet fields "title" with
    | some (.str t) =>
      if isValidTitle t then
        match jsonGet fields "completed" with
        | none => .ok ⟨t, some false⟩
        | some (.bool b) => .ok ⟨t, some b⟩
        | some _ =>
          .error (.validation "Invalid request body" (some "completed: expected boolean"))
      else
        .error (.validation "Invalid request body" (some "title: length out of bounds"))
    | _ => .error (.validation "Invalid request body" (some "title: expected string"))
  | _ => .error (.validation "Invalid request body" (some "expected object"))

/-- Decoding of the optional `title` field of the partial update schema. -/
def decodeUpdateTitle (fields : List (String × JsonValue)) :
    Except RouterError (Option String) :=
  match jsonGet fields "title" with
  | none => .ok none
  | some (.str t) =>
    if isValidTitle t then .ok (some t)
    else .error (.validation "Invalid request body" (some "title: length out of bounds"))
  | some _ => .error (.validation "Invalid request body" (some "title: expected string"))

/-- `parseBody(UpdateTodoInput)`: `S.decodeUnknown` of the partial update
schema, failures mapped to `ValidationError` as above. -/
def decodeUpdateTodoInput (v : JsonValue) : Except RouterError UpdateTodoInput :=
  match v with
  | .obj fields =>
    match decodeUpdateTitle fields with
    | .error e => .error e
    | .ok t? =>
      match jsonGet fields "completed" with
      | none => .ok ⟨t?, none⟩
      | some (.bool b) => .ok ⟨t?, some b⟩
      | some _ =>
        .error (.validation "Invalid request body" (some "completed: expected boolean"))
  | _ => .error (.validation "Invalid request body" (some "expected object"))

/-- `GET /todos`: `repo.getAll` → 200 with the list. -/
def routeGetTodos (s : RepoState) : Response :=
  handleErrors (.ok ⟨200, jsonHeaders, .todoListJson (s.todos.map (·.2))⟩)

/-- `GET /todos/:id`: `repo.getById` → 200, errors through `handleErrors`. -/
def routeGetTodoById (s : RepoState) (id : String) : Response :=
  handleErrors
    (match repoGetById s id with
     | .ok todo => .ok ⟨200, jsonHeaders, .todoJson todo⟩
     | .error e => .error (.notFound e))

/-- `POST /todos`: `parseBody(CreateTodoInput)` then `repo.create` → 201. -/
def routePostTodos (s : RepoState) (body : JsonValue) (now : String) :
    Response × RepoState :=
  match decodeCreateTodoInput body with
  | .error e => (handleErrors (.error e), s)
  | .ok input =>
    let created := repoCreate s input now
    (handleErrors (.ok ⟨201, jsonHeaders, .todoJson created.1⟩), created.2)

/-- `PATCH /todos/:id`: `parseBody(UpdateTodoInput)` then `repo.update` → 200. -/
def routePatchTodo (s : RepoState) (id : String) (body : JsonValue) :
    Response × RepoState :=
  match decodeUpdateTodoInput body with
  | .error e => (handleErrors (.error e), s)
  | .ok updates =>
    match repoUpdate s id updates with
    | .error e => (handleErrors (.error (.notFound e)), s)
    | .ok (todo, s₂) => (handleErrors (.ok ⟨200, jsonHeaders, .todoJson todo⟩), s₂)

/-- `DELETE /todos/:id`: `repo.delete` → `Http.response.empty({ status: 204 })`. -/
def routeDeleteTodo (s : RepoState) (id : String) : Response × RepoState :=
  match repoDelete s id with
  | .error e => (handleErrors (.error (.notFound e)), s)
  | .ok s₂ => (handleErrors (.ok ⟨204, [], .empty⟩), s₂)

/-- `OPTIONS /*`: 204 with the permissive CORS headers and an empty body,
for every path. -/
def routeOptions (_path : String) : Response :=
  ⟨204, corsHeaders, .empty⟩

/-! ### States reachable through the request-handling path -/

/-- A state-mutating request handled by the router. -/
inductive ApiRequest where
  | post (body : JsonValue) (now : String)
  | patch (id : String) (body : JsonValue)
  | delete (id : String)

/-- The router's state transition for one request. -/
def routerStep (s : RepoState) (req : ApiRequest) : Response × RepoState :=
  match req with
  | .post body now => routePostTodos s body now
  | .patch id body => routePatchTodo s id body
  | .delete id => routeDeleteTodo s id

/-- The repository state after a sequence of handled requests. -/
def routerExec (s : RepoState) (reqs : List ApiRequest) : RepoState :=
  reqs.foldl (fun st req => (routerStep st req).2) s

/-- Schema invariant over a whole repository state. -/
def repoStateValid (s : RepoState) : Bool :=
  s.todos.all (fun p => isValidTodo p.2)

/-! ### Schema-invariant support lemmas -/

theorem freshTodoId_length (c : Nat) : 1 ≤ (freshTodoId c).length := by
  rw [freshTodoId_eq_repr, String.length_append]
  have h : "todo-".length = 5 := rfl
  omega

theorem decodeCreateTodoInput_valid {v : JsonValue} {i : CreateTodoInput}
    (h : decodeCreateTodoInput v = .ok i) : isValidTitle i.title = true := by
  unfold decodeCreateTodoInput at h
  repeat' split at h
  all_goals first
    | exact Except.noConfusion h
    | (injection h with h₂; subst h₂; assumption)

theorem decodeUpdateTitle_valid {fields : List (String × JsonValue)}
    {t? : Option String} (h : decodeUpdateTitle fields = .ok t?) :
    isValidUpdateInput ⟨t?, none⟩ = true := by
  unfold decodeUpdateTitle at h
  repeat' split at h
  all_goals first
    | exact Except.noConfusion h
    | (injection h with h₂; subst h₂;
        first
          | rfl
          | (simp only [isValidUpdateInput]; assumption))

theorem decodeUpdateTodoInput_valid {v : JsonValue} {u : UpdateTodoInput}
    (h : decodeUpdateTodoInput v = .ok u) : isValidUpdateInput u = true := by
  cases v with
  | obj fields =>
    simp only [decodeUpdateTodoInput] at h
    cases ht : decodeUpdateTitle fields with
    | error e => rw [ht] at h; exact Except.noConfusion h
    | ok t? =>
      rw [ht] at h
      have hval := decodeUpdateTitle_valid ht
      cases hc : jsonGet fields "completed" with
      | none =>
        rw [hc] at h
        injection h with h₂
        subst h₂
        simpa [isValidUpdateInput] using hval
      | some w =>
        rw [hc] at h
        cases w with
        | bool b =>
          injection h with h₂
          subst h₂
          simpa [isValidUpdateInput] using hval
        | null => exact Except.noConfusion h
        | str s₂ => exact Except.noConfusion h
        | num n => exact Except.noConfusion h
        | obj f₂ => exact Except.noConfusion h
  | null => exact Except.noConfusion h
  | bool b => exact Except.noConfusion h
  | str s₂ => exact Except.noConfusion h
  | num n => exact Except.noConfusion h

theorem mapGet_all_valid {m : TodoMap} {k : String} {t : Todo}
    (hall : m.all (fun p => isValidTodo p.2) = true)
    (h : mapGet m k = some t) : isValidTodo t = true := by
  induction m with
  | nil => exact Option.noConfusion h
  | cons hd tl ih =>
    obtain ⟨k₀, v₀⟩ := hd
    simp only [List.all_cons, Bool.and_eq_true] at hall
    simp only [mapGet] at h
    by_cases hk : k₀ = k
    · rw [if_pos hk] at h
      injection h with h₂
      subst h₂
      exact hall.1
    · rw [if_neg hk] at h
      exact ih hall.2 h

theorem all_mapSet {m : TodoMap} {k : String} {t : Todo}
    (hall : m.all (fun p => isValidTodo p.2) = true)
    (ht : isValidTodo t = true) :
    (mapSet m k t).all (fun p => isValidTodo p.2) = true := by
  induction m with
  | nil => simp [mapSet, ht]
  | cons hd tl ih =>
    obtain ⟨k₀, v₀⟩ := hd
    simp only [List.all_cons, Bool.and_eq_true] at hall
    by_cases hk : k₀ = k
    · simp [mapSet, hk, ht, hall.2]
    · simp [mapSet, hk, hall.1, ih hall.2]

theorem all_mapDelete {m : TodoMap} {k : String}
    (hall : m.all (fun p => isValidTodo p.2) = true) :
    (mapDelete m k).all (fun p => isValidTodo p.2) = true := by
  induction m with
  | nil => simp [mapDelete]
  | cons hd tl ih =>
    obtain ⟨k₀, v₀⟩ := hd
    simp only [List.all_cons, Bool.and_eq_true] at hall
    by_cases hk : k₀ = k
    · simp [mapDelete, hk, ih hall.2]
    · simp [mapDelete, hk, hall.1, ih hall.2]

theorem repoStateValid_routerStep (s : RepoState) (req : ApiRequest)
    (h : repoStateValid s = true) : repoStateValid (routerStep s req).2 = true := by
  cases req with
  | post body now =>
    cases hd : decodeCreateTodoInput body with
    | error e => simpa [routerStep, routePostTodos, hd] using h
    | ok input =>
      have hv := decodeCreateTodoInput_valid hd
      simp only [routerStep, routePostTodos, hd]
      simp only [repoStateValid, repoCreate] at h ⊢
      apply all_mapSet h
      simp only [isValidTodo, Bool.and_eq_true, decide_eq_true_eq]
      exact ⟨freshTodoId_length s.idCounter, hv⟩
  | patch id body =>
    cases hd : decodeUpdateTodoInput body with
    | error e => simpa [routerStep, routePatchTodo, hd] using h
    | ok u =>
      have hv := decodeUpdateTodoInput_valid hd
      cases hm : mapGet s.todos id with
      | none => simpa [routerStep, routePatchTodo, hd, repoUpdate, hm] using h
      | some existing =>
        have hex : isValidTodo existing = true := mapGet_all_valid h hm
        simp only [routerStep, routePatchTodo, hd, repoUpdate, hm]
        simp only [repoStateValid] at h ⊢
        apply all_mapSet h
        simp only [isValidTodo, Bool.and_eq_true, decide_eq_true_eq] at hex ⊢
        refine ⟨hex.1, ?_⟩
        cases hu : u.title with
        | none => simpa [hu] using hex.2
        | some t₂ =>
          simp only [isValidUpdateInput, hu] at hv
          simpa using hv
  | delete id =>
    by_cases hhas : mapHas s.todos id = true
    · simp only [routerStep, routeDeleteTodo, repoDelete, hhas, if_true]
      simp only [repoStateValid] at h ⊢
      exact all_mapDelete h
    · simp only [Bool.not_eq_true] at hhas
      simpa [routerStep, routeDeleteTodo, repoDelete, hhas] using h

theorem repoStateValid_routerExec (reqs : List ApiRequest) (s : RepoState)
    (h : repoStateValid s = true) : repoStateValid (routerExec s reqs) = true := by
  induction reqs generalizing s with
  | nil => exact h
  | cons r rest ih => exact ih _ (repoStateValid_routerStep s r h)

/-! ### The plain in-memory Lambda handler (`apps/backend/src/index.ts`) -/

/-- A body produced by the plain handler's `jsonResponse`. -/
inductive PlainBody where
  | jsonNull
  | jsonTodo (t : Todo)
  | jsonError (message : String)
deriving DecidableEq, Repr

/-- A response of the plain handler. -/
structure PlainResponse where
  status : Nat
  body : PlainBody
deriving DecidableEq, Repr

/-- The parsed PATCH body of the plain handler: a field is `none` exactly when
the key is absent (`body.title === undefined`). -/
structure PatchBody where
  title : Option JsonValue := none
  completed : Option JsonValue := none

/-- `String.prototype.trim()`: strips leading and trailing whitespace,
modelled on the character list. -/
def jsTrim (s : String) : String :=
  ⟨((s.data.dropWhile Char.isWhitespace).reverse.dropWhile
      Char.isWhitespace).reverse⟩

/-- The `completed` branch of the plain handler's PATCH route.  It runs on the
state left behind by the `title` branch; `todo` is the (already mutated)
object held in the map, and the final `todos.set(id, todo)` is included. -/
def plainPatchCompleted (st : TodoMap) (id : String) (todo : Todo)
    (body : PatchBody) : PlainResponse × TodoMap :=
  match body.completed with
  | none => (⟨200, .jsonTodo todo⟩, mapSet st id todo)
  | some (.bool b) =>
    (⟨200, .jsonTodo { todo with completed := b }⟩,
     mapSet st id { todo with completed := b })
  | some _ => (⟨400, .jsonError "Completed must be a boolean"⟩, st)

/-- `PATCH /todos/:id` of the plain handler.  `todo.title = body.title.trim()`
mutates the object held in the map before `completed` is validated, so the
400 for a bad `completed` leaves the new title behind. -/
def plainPatch (st : TodoMap) (id : String) (body : PatchBody) :
    PlainResponse × TodoMap :=
  match mapGet st id with
  | none => (⟨404, .jsonError ("Todo with id " ++ id ++ " not found")⟩, st)
  | some todo =>
    match body.title with
    | none => plainPatchCompleted st id todo body
    | some (.str s) =>
      if (jsTrim s).length = 0 then
        (⟨400, .jsonError "Title must be a non-empty string"⟩, st)
      else
        plainPatchCompleted (mapSet st id { todo with title := jsTrim s }) id
          { todo with title := jsTrim s } body
    | some _ => (⟨400, .jsonError "Title must be a non-empty string"⟩, st)

/-! ### The claims -/

/-- C1: for every valid `CreateTodoInput` and every starting repository
state, `create` followed by `getById` on the returned entity's id yields
exactly the created entity. -/
theorem create_getById_roundtrip (s : RepoState) (input : CreateTodoInput)
    (now : String) (_h : isValidCreateInput input = true) :
    repoGetById (repoCreate s input now).2 (repoCreate s input now).1.id
      = .ok (repoCreate s input now).1 := by
  simp only [repoCreate, repoGetById]
  rw [mapGet_mapSet_self]

/-- Witness for C1 at a concrete input and state. -/
theorem create_getById_roundtrip_witness :
    isValidCreateInput ⟨"Buy milk", none⟩ = true ∧
    repoGetById
        (repoCreate initialRepoState ⟨"Buy milk", none⟩ "2026-10-11T00:00:00.000Z").2
        (repoCreate initialRepoState ⟨"Buy milk", none⟩ "2026-10-11T00:00:00.000Z").1.id
      = .ok (repoCreate initialRepoState ⟨"Buy milk", none⟩ "2026-10-11T00:00:00.000Z").1 :=
  ⟨by decide,
   create_getById_roundtrip initialRepoState ⟨"Buy milk", none⟩
     "2026-10-11T00:00:00.000Z" (by decide)⟩

/-- C2: for an id absent from storage, `getById`, `update` and `delete` each
fail with `TodoNotFoundError` carrying that id (the repository's error
channel holds no other error type, so no other failure is possible), and
after a successful `delete` a second `delete` of the same id fails with
`TodoNotFoundError` too. -/
theorem repo_notFound_totality (s s₂ s₃ : RepoState) (id : String)
    (u : UpdateTodoInput) (h : mapGet s.todos id = none)
    (h₂ : repoDelete s₂ id = .ok s₃) :
    repoGetById s id = .error ⟨id⟩ ∧
    repoUpdate s id u = .error ⟨id⟩ ∧
    repoDelete s id = .error ⟨id⟩ ∧
    repoDelete s₃ id = .error ⟨id⟩ := by
  refine ⟨?_, ?_, ?_, ?_⟩
  · simp [repoGetById, h]
  · simp [repoUpdate, h]
  · simp [repoDelete, mapHas, h]
  · unfold repoDelete at h₂
    by_cases hhas : mapHas s₂.todos id = true
    · rw [if_pos hhas] at h₂
      injection h₂ with h₃
      subst h₃
      simp [repoDelete, mapHas, mapGet_mapDelete]
    · rw [if_neg hhas] at h₂
      exact Except.noConfusion h₂

/-- Witness for C2 at concrete states. -/
theorem repo_notFound_totality_witness :
    mapGet initialRepoState.todos "missing" = none ∧
    repoDelete ⟨[("missing", ⟨"missing", "Test", false, "t0"⟩)], 2⟩ "missing"
      = .ok ⟨[], 2⟩ ∧
    (repoGetById initialRepoState "missing" = .error ⟨"missing"⟩ ∧
     repoUpdate initialRepoState "missing" ⟨none, some true⟩ = .error ⟨"missing"⟩ ∧
     repoDelete initialRepoState "missing" = .error ⟨"missing"⟩ ∧
     repoDelete (⟨[], 2⟩ : RepoState) "missing" = .error ⟨"missing"⟩) :=
  ⟨rfl, rfl,
   repo_notFound_totality initialRepoState
     ⟨[("missing", ⟨"missing", "Test", false, "t0"⟩)], 2⟩ ⟨[], 2⟩
     "missing" ⟨none, some true⟩ rfl rfl⟩

/-- C3: `update` merges exactly the provided fields into the stored entity —
`title` and `completed` take the provided value when present and keep the
existing one otherwise, while `id` and `createdAt` always stay the existing
ones — stores the merged entity under `id`, and leaves every other key's
entry untouched. -/
theorem repoUpdate_merges_only_provided_fields (s : RepoState)
    (id k : String) (existing : Todo) (u : UpdateTodoInput)
    (h : mapGet s.todos id = some existing) (hk : k ≠ id) :
    repoUpdate s id u
      = .ok (⟨existing.id, u.title.getD existing.title,
              u.completed.getD existing.completed, existing.createdAt⟩,
             ⟨mapSet s.todos id
                ⟨existing.id, u.title.getD existing.title,
                 u.completed.getD existing.completed, existing.createdAt⟩,
              s.idCounter⟩) ∧
    mapGet (repoStep s (.update id u)).todos id
      = some ⟨existing.id, u.title.getD existing.title,
              u.completed.getD existing.completed, existing.createdAt⟩ ∧
    mapGet (repoStep s (.update id u)).todos k = mapGet s.todos k := by
  refine ⟨by simp [repoUpdate, h], ?_, ?_⟩
  · simp only [repoStep, repoUpdate, h]
    exact mapGet_mapSet_self _ _ _
  · simp only [repoStep, repoUpdate, h]
    exact mapGet_mapSet_ne _ _ _ _ hk

/-- Witness for C3: `update(id, { completed: true })` on a concrete state
changes only `completed` and leaves the other stored entity alone. -/
theorem repoUpdate_merges_only_provided_fields_witness :
    mapGet
        (⟨[("todo-1", ⟨"todo-1", "Original", false, "t0"⟩),
           ("todo-2", ⟨"todo-2", "Other", false, "t1"⟩)], 3⟩ : RepoState).todos
        "todo-1"
      = some ⟨"todo-1", "Original", false, "t0"⟩ ∧
    "todo-2" ≠ "todo-1" ∧
    (repoUpdate
        ⟨[("todo-1", ⟨"todo-1", "Original", false, "t0"⟩),
          ("todo-2", ⟨"todo-2", "Other", false, "t1"⟩)], 3⟩
        "todo-1" ⟨none, some true⟩
      = .ok (⟨"todo-1", (none : Option String).getD "Original",
              (some true).getD false, "t0"⟩,
             ⟨mapSet
                [("todo-1", ⟨"todo-1", "Original", false, "t0"⟩),
                 ("todo-2", ⟨"todo-2", "Other", false, "t1"⟩)]
                "todo-1"
                ⟨"todo-1", (none : Option String).getD "Original",
                 (some true).getD false, "t0"⟩, 3⟩) ∧
     mapGet (repoStep
        ⟨[("todo-1", ⟨"todo-1", "Original", false, "t0"⟩),
          ("todo-2", ⟨"todo-2", "Other", false, "t1"⟩)], 3⟩
        (.update "todo-1" ⟨none, some true⟩)).todos "todo-1"
       = some ⟨"todo-1", (none : Option String).getD "Original",
               (some true).getD false, "t0"⟩ ∧
     mapGet (repoStep
        ⟨[("todo-1", ⟨"todo-1", "Original", false, "t0"⟩),
          ("todo-2", ⟨"todo-2", "Other", false, "t1"⟩)], 3⟩
        (.update "todo-1" ⟨none, some true⟩)).todos "todo-2"
       = mapGet
           (⟨[("todo-1", ⟨"todo-1", "Original", false, "t0"⟩),
              ("todo-2", ⟨"todo-2", "Other", false, "t1"⟩)], 3⟩ : RepoState).todos
           "todo-2") :=
  ⟨rfl, by decide,
   repoUpdate_merges_only_provided_fields
     ⟨[("todo-1", ⟨"todo-1", "Original", false, "t0"⟩),
       ("todo-2", ⟨"todo-2", "Other", false, "t1"⟩)], 3⟩
     "todo-1" "todo-2" ⟨"todo-1", "Original", false, "t0"⟩ ⟨none, some true⟩
     rfl (by decide)⟩

/-- C4: a POST body whose title is the empty string or longer than 200
characters is rejected by `parseBody(CreateTodoInput)` with a
`ValidationError` mapped to status 400, and the repository state comes back
exactly unchanged — `repo.create` is never reached, so no partial write can
occur. -/
theorem create_validation_before_any_mutation (s : RepoState)
    (fields : List (String × JsonValue)) (t now : String)
    (ht : jsonGet fields "title" = some (.str t))
    (hbad : t.length = 0 ∨ 200 < t.length) :
    routePostTodos s (.obj fields) now
      = (⟨400, jsonHeaders,
          .errorJson "Invalid request body" (some "title: length out of bounds")⟩,
         s) := by
  have hv : isValidTitle t = false := by
    simp only [isValidTitle, Bool.and_eq_false_iff, decide_eq_false_iff_not]
    omega
  simp [routePostTodos, decodeCreateTodoInput, ht, hv, handleErrors]

/-- Witness for C4 at the empty title. -/
theorem create_validation_before_any_mutation_witness :
    jsonGet [("title", JsonValue.str "")] "title" = some (.str "") ∧
    (String.length "" = 0 ∨ 200 < String.length "") ∧
    routePostTodos initialRepoState (.obj [("title", JsonValue.str "")]) "t0"
      = (⟨400, jsonHeaders,
          .errorJson "Invalid request body" (some "title: length out of bounds")⟩,
         initialRepoState) :=
  ⟨rfl, Or.inl rfl,
   create_validation_before_any_mutation initialRepoState
     [("title", JsonValue.str "")] "" "t0" rfl (Or.inl rfl)⟩

/-- C5: `handleErrors` is a total deterministic function of the failure:
`TodoNotFoundError` ↦ 404 with `{ error: "Todo with id <id> not found" }`,
`ValidationError` ↦ 400 with `{ error: message, details: issues }`, any other
failure ↦ 500 with `{ error: "Internal server error", details: cause }`;
successes pass through untouched.  In particular `GET /todos/:id` on an
absent id produces the 404 body of Scenario B. -/
theorem router_error_mapping (e : RouterError) (r : Response) (s : RepoState)
    (h : mapGet s.todos "does-not-exist" = none) :
    handleErrors (.error e)
      = (match e with
         | .notFound nf =>
           ⟨404, jsonHeaders,
            .errorJson ("Todo with id " ++ nf.id ++ " not found") none⟩
         | .validation message issues =>
           ⟨400, jsonHeaders, .errorJson message issues⟩
         | .other cause =>
           ⟨500, jsonHeaders, .errorJson "Internal server error" (some cause)⟩) ∧
    handleErrors (.ok r) = r ∧
    routeGetTodoById s "does-not-exist"
      = ⟨404, jsonHeaders,
         .errorJson "Todo with id does-not-exist not found" none⟩ := by
  refine ⟨?_, rfl, ?_⟩
  · cases e with
    | notFound nf => rfl
    | validation message issues => rfl
    | other cause => rfl
  · simp [routeGetTodoById, repoGetById, h, handleErrors]

/-- Witness for C5 at a concrete error, response and state. -/
theorem router_error_mapping_witness :
    mapGet initialRepoState.todos "does-not-exist" = none ∧
    (handleErrors (.error (.notFound ⟨"x"⟩))
        = ⟨404, jsonHeaders, .errorJson ("Todo with id " ++ "x" ++ " not found") none⟩ ∧
     handleErrors (.ok ⟨200, jsonHeaders, .todoListJson []⟩)
        = ⟨200, jsonHeaders, .todoListJson []⟩ ∧
     routeGetTodoById initialRepoState "does-not-exist"
        = ⟨404, jsonHeaders,
           .errorJson "Todo with id does-not-exist not found" none⟩) :=
  ⟨rfl,
   router_error_mapping (.notFound ⟨"x"⟩) ⟨200, jsonHeaders, .todoListJson []⟩
     initialRepoState rfl⟩

/-- C6: starting from the empty repository, after any sequence of create,
update and delete requests handled through the router (which validates every
body against the schema before calling the repository), every stored entity
satisfies the `Todo` schema — non-empty `id` and `title` of length 1..200;
`completed : Bool` and `createdAt : String` hold by the typing of the
embedding — so no partially-valid entity is ever stored. -/
theorem router_schema_invariant (reqs : List ApiRequest) :
    repoStateValid (routerExec initialRepoState reqs) = true :=
  repoStateValid_routerExec reqs initialRepoState rfl

/-- C7: in every repository state reachable by repository operations from the
initial state, `create` generates the id `todo-<idCounter>`, which is absent
from storage; the stored collection is extended by exactly the new entry, so
`create` never overwrites an existing entity. -/
theorem repoCreate_fresh_unique_id (ops : List RepoOp) (input : CreateTodoInput)
    (now : String) :
    mapGet (repoExec initialRepoState ops).todos
        (repoCreate (repoExec initialRepoState ops) input now).1.id = none ∧
    (repoCreate (repoExec initialRepoState ops) input now).2.todos
      = (repoExec initialRepoState ops).todos
        ++ [((repoCreate (repoExec initialRepoState ops) input now).1.id,
             (repoCreate (repoExec initialRepoState ops) input now).1)] := by
  have hcb : counterBounds (repoExec initialRepoState ops) :=
    counterBounds_repoExec ops initialRepoState counterBounds_initial
  have habs := hcb (repoExec initialRepoState ops).idCounter (le_refl _)
  exact ⟨habs, mapSet_of_absent _ _ _ habs⟩

/-- C8: `DELETE /todos/:id` on a stored id responds 204 with an empty body,
and a subsequent `GET /todos/:id` on the state it leaves behind responds
404. -/
theorem delete_then_get_notFound (s : RepoState) (id : String) (t : Todo)
    (h : mapGet s.todos id = some t) :
    routeDeleteTodo s id
      = (⟨204, [], .empty⟩, ⟨mapDelete s.todos id, s.idCounter⟩) ∧
    routeGetTodoById ⟨mapDelete s.todos id, s.idCounter⟩ id
      = ⟨404, jsonHeaders, .errorJson ("Todo with id " ++ id ++ " not found") none⟩ := by
  have hhas : mapHas s.todos id = true := by simp [mapHas, h]
  constructor
  · simp [routeDeleteTodo, repoDelete, hhas, handleErrors]
  · simp [routeGetTodoById, repoGetById, mapGet_mapDelete, handleErrors]

/-- Witness for C8 at a concrete state. -/
theorem delete_then_get_notFound_witness :
    mapGet (⟨[("todo-1", ⟨"todo-1", "Test", false, "t0"⟩)], 2⟩ : RepoState).todos
        "todo-1" = some ⟨"todo-1", "Test", false, "t0"⟩ ∧
    (routeDeleteTodo ⟨[("todo-1", ⟨"todo-1", "Test", false, "t0"⟩)], 2⟩ "todo-1"
        = (⟨204, [], .empty⟩,
           ⟨mapDelete [("todo-1", ⟨"todo-1", "Test", false, "t0"⟩)] "todo-1", 2⟩) ∧
     routeGetTodoById
        ⟨mapDelete [("todo-1", ⟨"todo-1", "Test", false, "t0"⟩)] "todo-1", 2⟩
        "todo-1"
        = ⟨404, jsonHeaders,
           .errorJson ("Todo with id " ++ "todo-1" ++ " not found") none⟩) :=
  ⟨rfl,
   delete_then_get_notFound ⟨[("todo-1", ⟨"todo-1", "Test", false, "t0"⟩)], 2⟩
     "todo-1" ⟨"todo-1", "Test", false, "t0"⟩ rfl⟩

/-- C9: for every path, the router's `OPTIONS /*` route responds 204 with an
empty body and the permissive CORS headers
`Access-Control-Allow-Origin: *`,
`Access-Control-Allow-Methods: GET,POST,PATCH,DELETE,OPTIONS`,
`Access-Control-Allow-Headers: Content-Type`. -/
theorem options_cors_preflight (path : String) :
    routeOptions path
      = ⟨204,
         [("Access-Control-Allow-Origin", "*"),
          ("Access-Control-Allow-Methods", "GET,POST,PATCH,DELETE,OPTIONS"),
          ("Access-Control-Allow-Headers", "Content-Type")],
         .empty⟩ := rfl

/-- C10: in the plain in-memory Lambda handler, a PATCH whose body carries a
title that trims to a non-empty string together with a non-boolean
`completed` returns status 400 ("Completed must be a boolean") — and the
entity held in the map has nevertheless already had its title overwritten
with the trimmed new title. -/
theorem plainPatch_mutates_title_before_completed_check (st : TodoMap)
    (id : String) (todo : Todo) (t : String) (c : JsonValue)
    (h : mapGet st id = some todo)
    (ht : ¬(jsTrim t).length = 0)
    (hc : c.isBool = false) :
    (plainPatch st id ⟨some (.str t), some c⟩).1.status = 400 ∧
    (plainPatch st id ⟨some (.str t), some c⟩).1.body
      = .jsonError "Completed must be a boolean" ∧
    mapGet (plainPatch st id ⟨some (.str t), some c⟩).2 id
      = some { todo with title := jsTrim t } := by
  simp only [plainPatch, h]
  rw [if_neg ht]
  cases c with
  | bool b => simp [JsonValue.isBool] at hc
  | null => exact ⟨rfl, rfl, mapGet_mapSet_self _ _ _⟩
  | str s₂ => exact ⟨rfl, rfl, mapGet_mapSet_self _ _ _⟩
  | num n => exact ⟨rfl, rfl, mapGet_mapSet_self _ _ _⟩
  | obj f₂ => exact ⟨rfl, rfl, mapGet_mapSet_self _ _ _⟩

/-- Witness for C10 at a concrete map, title and `completed` value. -/
theorem plainPatch_mutates_title_witness :
    mapGet [("todo-1", ⟨"todo-1", "Old title", false, "t0"⟩)] "todo-1"
      = some ⟨"todo-1", "Old title", false, "t0"⟩ ∧
    ¬(jsTrim " New ").length = 0 ∧
    (JsonValue.num 1).isBool = false ∧
    ((plainPatch [("todo-1", ⟨"todo-1", "Old title", false, "t0"⟩)] "todo-1"
        ⟨some (.str " New "), some (.num 1)⟩).1.status = 400 ∧
     (plainPatch [("todo-1", ⟨"todo-1", "Old title", false, "t0"⟩)] "todo-1"
        ⟨some (.str " New "), some (.num 1)⟩).1.body
       = .jsonError "Completed must be a boolean" ∧
     mapGet (plainPatch [("todo-1", ⟨"todo-1", "Old title", false, "t0"⟩)] "todo-1"
        ⟨some (.str " New "), some (.num 1)⟩).2 "todo-1"
       = some ⟨"todo-1", jsTrim " New ", false, "t0"⟩) :=
  ⟨rfl, by decide, rfl,
   plainPatch_mutates_title_before_completed_check
     [("todo-1", ⟨"todo-1", "Old title", false, "t0"⟩)] "todo-1"
     ⟨"todo-1", "Old title", false, "t0"⟩ " New " (.num 1)
     rfl (by decide) rfl⟩
